import Mathlib

/-!
Verification of the conversion-task orchestrator of the file-convert backend.

Shallow embedding of the TypeScript sources:
* `src/src/utils.ts`  — format router and backend invokers;
* `src/src/index.ts`  — task orchestrator, task store, expiry sweeper;
* `src/src/config.ts` — configuration constants (environment defaults).

The filesystem is modelled as a finite list of file entries.  External
processes (ffmpeg, soffice, python) are modelled by the filesystem state they
leave behind plus an optional execution error, since their behaviour is
outside the program.  `fs.existsSync` on bare script paths is modelled by a
boolean oracle `ex : String → Bool` where only single-path queries occur.
-/

namespace ConvertBackend

/-! ### String helpers mirroring the JS string operations used by the code -/

/-- JS `String.prototype.startsWith`. -/
def strStartsWith (s pat : String) : Bool := List.isPrefixOf pat.data s.data

/-- JS `String.prototype.substring(n)` / `slice(n)` (character based). -/
def strDrop (s : String) (n : Nat) : String := ⟨s.data.drop n⟩

/-- JS `String.prototype.toLowerCase` (ASCII range, which is all the code uses). -/
def strToLower (s : String) : String := ⟨s.data.map Char.toLower⟩

/-- Removes the first `'.'` from a character list, the behaviour of the JS
string-pattern call `s.replace(".", "")` used in `utils.ts`. -/
def removeFirstDotAux : List Char → List Char
  | [] => []
  | c :: rest => if c = '.' then rest else c :: removeFirstDotAux rest

/-- JS `sourceExt.replace(".", "")` (replaces only the first occurrence). -/
def replaceFirstDot (s : String) : String := ⟨removeFirstDotAux s.data⟩

/-- Index of the last `'.'` in a character list, if any. -/
def lastDotIndex (cs : List Char) : Option Nat :=
  (cs.enum).foldl (fun acc e => if e.2 = '.' then some e.1 else acc) none

/-- Node `path.extname` restricted to bare file names (no slash), which is the
only way the code applies it: the suffix from the last dot, empty when there
is no dot or the only dot is the leading character. -/
def extname (s : String) : String :=
  match lastDotIndex s.data with
  | none => ""
  | some 0 => ""
  | some i => ⟨s.data.drop i⟩

/-- Node `path.join(dir, name)` for the simple two-component joins the code
performs. -/
def joinPath (dir name : String) : String := dir ++ "/" ++ name

/-- Substring scan underlying `containsSub`. -/
def containsSubAux (pat : List Char) : List Char → Bool
  | [] => pat.isEmpty
  | c :: rest => List.isPrefixOf pat (c :: rest) || containsSubAux pat rest

/-- JS `String.prototype.includes` (substring containment). -/
def containsSub (s pat : String) : Bool := containsSubAux pat.data s.data

/-! ### Configuration (`src/src/config.ts`, environment defaults) -/

def config_port : Nat := 8080

def config_publicBaseUrl : String := "https://api.convertease.site"

def config_maxConcurrent : Nat := 2

def config_fileExpireTime : Nat := 24 * 60 * 60 * 1000

def config_cleanupInterval : Nat := 3600000

def pythonScripts_pdfToDoc : String := "./src/scripts/pdf_to_doc.py"

def pythonScripts_pdfToTxt : String := "./src/scripts/pdf_to_txt.py"

def pythonScripts_pdfToXls : String := "./src/scripts/pdf_to_xls.py"

def pythonScripts_docToHtml : String := "./src/scripts/doc_to_html.py"

def pythonScripts_xlsToDoc : String := "./src/scripts/xls_to_doc.py"

def pythonScripts_xlsToTxt : String := "./src/scripts/xls_to_txt.py"

def pythonScripts_txtToWord : String := "./src/scripts/txt_to_word.py"

def pythonScripts_txtToXls : String := "./src/scripts/txt_to_xls.py"

def pythonScripts_pdfToPpt : String := "./src/scripts/pdf_to_ppt.py"

def pythonScripts_htmlToWord : String := "./src/scripts/html_to_word.py"

def pythonScripts_htmlToPdf : String := "./src/scripts/html_to_pdf.py"

/-! ### Data model (`src/src/types.ts`) -/

inductive Category where
  | document
  | audio
deriving DecidableEq, Repr

inductive TaskState where
  | queued
  | processing
  | finished
  | error
deriving DecidableEq, Repr

/-! ### Conversion tables (`src/src/utils.ts`, lines 11–63) -/

/-- Table `supportedConversions.document`: target format ↦ allowed source extensions. -/
def documentConversions : List (String × List String) := [
  ("pdf", [".doc", ".docx", ".ppt", ".pptx", ".xls", ".xlsx", ".txt", ".rtf"]),
  ("doc", [".docx", ".rtf", ".txt", ".odt", ".html", ".pdf"]),
  ("docx", [".doc", ".rtf", ".txt", ".odt", ".html", ".pdf"]),
  ("xlsx", [".xls", ".ods", ".csv", ".txt", ".pdf", ".doc"]),
  ("xls", [".xlsx", ".ods", ".csv", ".txt", ".pdf", ".doc"]),
  ("pptx", [".ppt", ".odp", ".pdf"]),
  ("ppt", [".pptx", ".odp", ".pdf"]),
  ("txt", [".doc", ".docx", ".rtf", ".odt", ".pdf", ".xls", ".xlsx"]),
  ("rtf", [".doc", ".docx", ".txt", ".odt"]),
  ("html", [".pdf", ".doc", ".docx"])]

/-- Table `supportedConversions.audio`: target format ↦ allowed source extensions. -/
def audioConversions : List (String × List String) := [
  ("mp3", [".mp3", ".wav", ".aac", ".flac", ".m4a", ".ogg", ".wma"]),
  ("wav", [".wav", ".mp3", ".aac", ".flac", ".m4a", ".ogg", ".wma"]),
  ("aac", [".aac", ".mp3", ".wav", ".m4a", ".flac"]),
  ("flac", [".flac", ".wav", ".mp3", ".aac"]),
  ("ogg", [".ogg", ".mp3", ".wav", ".flac"]),
  ("m4a", [".m4a", ".mp3", ".wav", ".aac"])]

def supportedConversions : Category → List (String × List String)
  | .document => documentConversions
  | .audio => audioConversions

/-- One entry of the per-pair Python script table. -/
structure PyConv where
  script : String
  description : String
deriving DecidableEq, Repr

/-- Table `pythonConversions`: conversion key `"src->tgt"` ↦ script entry. -/
def pythonConversions : List (String × PyConv) := [
  ("pdf->doc", ⟨pythonScripts_pdfToDoc, "PDF 转 Word"⟩),
  ("pdf->docx", ⟨pythonScripts_pdfToDoc, "PDF 转 Word"⟩),
  ("pdf->txt", ⟨pythonScripts_pdfToTxt, "PDF 转文本"⟩),
  ("pdf->xls", ⟨pythonScripts_pdfToXls, "PDF 转 Excel"⟩),
  ("pdf->xlsx", ⟨pythonScripts_pdfToXls, "PDF 转 Excel"⟩),
  ("pdf->ppt", ⟨pythonScripts_pdfToPpt, "PDF 转 PowerPoint"⟩),
  ("pdf->pptx", ⟨pythonScripts_pdfToPpt, "PDF 转 PowerPoint"⟩),
  ("doc->html", ⟨pythonScripts_docToHtml, "Word 转 HTML"⟩),
  ("docx->html", ⟨pythonScripts_docToHtml, "Word 转 HTML"⟩),
  ("xls->doc", ⟨pythonScripts_xlsToDoc, "Excel 转 Word"⟩),
  ("xlsx->doc", ⟨pythonScripts_xlsToDoc, "Excel 转 Word"⟩),
  ("xls->docx", ⟨pythonScripts_xlsToDoc, "Excel 转 Word"⟩),
  ("xlsx->docx", ⟨pythonScripts_xlsToDoc, "Excel 转 Word"⟩),
  ("xls->txt", ⟨pythonScripts_xlsToTxt, "Excel 转文本"⟩),
  ("xlsx->txt", ⟨pythonScripts_xlsToTxt, "Excel 转文本"⟩),
  ("txt->doc", ⟨pythonScripts_txtToWord, "文本转 Word"⟩),
  ("txt->docx", ⟨pythonScripts_txtToWord, "文本转 Word"⟩),
  ("txt->xls", ⟨pythonScripts_txtToXls, "文本转 Excel"⟩),
  ("txt->xlsx", ⟨pythonScripts_txtToXls, "文本转 Excel"⟩),
  ("html->doc", ⟨pythonScripts_htmlToWord, "HTML 转 Word"⟩),
  ("html->docx", ⟨pythonScripts_htmlToWord, "HTML 转 Word"⟩),
  ("html->pdf", ⟨pythonScripts_htmlToPdf, "HTML 转 PDF"⟩)]

/-- JS object indexing `table[key]` on the conversion tables. -/
def lookupTable (tbl : List (String × List String)) (k : String) : Option (List String) :=
  (tbl.find? (fun e => e.1 == k)).map (·.2)

/-- JS object indexing `pythonConversions[conversionKey]`. -/
def lookupPy (k : String) : Option PyConv :=
  (pythonConversions.find? (fun e => e.1 == k)).map (·.2)

/-! ### Format router (`src/src/utils.ts`, lines 66–135)

`ex` is the `fs.existsSync` oracle: the filesystem state at the time of the
call, restricted to the single-path existence queries the router performs. -/

/-- Source `isConversionSupported(category, sourceExt, targetFormat)`. -/
def isConversionSupported (ex : String → Bool) : Category → String → String → Bool
  | .audio, sourceExt, targetFormat =>
    match lookupTable audioConversions targetFormat with
    | some sources => sources.contains sourceExt
    | none => false
  | .document, sourceExt, targetFormat =>
    match lookupTable documentConversions targetFormat with
    | none => false
    | some sources =>
      let sourceFormat := replaceFirstDot sourceExt
      let conversionKey := sourceFormat ++ "->" ++ targetFormat
      match lookupPy conversionKey with
      | some entry => if ex entry.script = false then false else true
      | none => sources.contains sourceExt

/-- Source `getSupportedTargets(category, sourceExt)` (the source builds the result
by pushing table keys in order; filter-then-project is the same list). -/
def getSupportedTargets (ex : String → Bool) : Category → String → List String
  | .audio, sourceExt =>
    (audioConversions.filter (fun e => e.2.contains sourceExt)).map (·.1)
  | .document, sourceExt =>
    let sourceFormat := replaceFirstDot sourceExt
    (documentConversions.filter (fun e =>
      match lookupPy (sourceFormat ++ "->" ++ e.1) with
      | some entry => ex entry.script
      | none => e.2.contains sourceExt)).map (·.1)

/-! ### Target normalization in the upload handler (`src/src/index.ts`, 176–183) -/

/-- The handler's `target` preprocessing: lowercase, then strip one leading dot. -/
def normalizeTarget (raw : String) : String :=
  let target := strToLower raw
  if strStartsWith target "." then strDrop target 1 else target

/-- The routing decision the upload handler makes for a raw requested target
(`isConversionSupported` is called only after normalization, index.ts:218). -/
def uploadRouteSupported (ex : String → Bool) (category : Category)
    (fileExt rawTarget : String) : Bool :=
  isConversionSupported ex category fileExt (normalizeTarget rawTarget)

/-! ### Filesystem model

A filesystem is a finite list of file entries keyed by full path.  `unlink`
and the sweeps only ever remove entries; the writes done by the external
conversion processes are modelled by quantifying over the post-exec state. -/

structure FileEnt where
  path : String
  size : Nat
  mtimeMs : Nat
  isDirectory : Bool
deriving DecidableEq, Repr

/-- The filesystem: the set of entries currently on disk. -/
abbrev FSt := List FileEnt

/-- Models `fs.existsSync(p)`. -/
def existsSync (fs : FSt) (p : String) : Bool := fs.any (fun f => f.path == p)

/-- Models `fs.statSync(p).size` (as an `Option`; the code only stats paths it has
just seen exist). -/
def statSize (fs : FSt) (p : String) : Option Nat :=
  (fs.find? (fun f => f.path == p)).map (·.size)

/-- Models `fs.statSync(p).mtimeMs`. -/
def statMtime (fs : FSt) (p : String) : Option Nat :=
  (fs.find? (fun f => f.path == p)).map (·.mtimeMs)

/-- Models `fs.unlinkSync(p)` (removing a missing path is a no-op here; the code
always guards unlink calls with `existsSync`). -/
def unlinkSync (fs : FSt) (p : String) : FSt := fs.filter (fun f => !(f.path == p))

/-- The name of `p` inside directory `dir`, when `p` is directly inside it. -/
def entryName? (dir p : String) : Option String :=
  if strStartsWith p (dir ++ "/") then
    let rest := strDrop p (dir ++ "/").data.length
    if rest.data.contains '/' then none else some rest
  else none

/-- Models `fs.readdirSync(dir)`: names of the entries directly inside `dir`. -/
def readdirSync (fs : FSt) (dir : String) : List String :=
  fs.filterMap (fun f => entryName? dir f.path)

/-! ### Backend invokers (`src/src/utils.ts`, lines 215–402)

`runFFmpeg` and `runPythonConversion` share (in the source, literally
duplicated) the same post-exec verification and catch-cleanup logic, factored
here into `execVerify` and `catchCleanup`.  Parameters:

* `fsA`     — the filesystem after the external process ran (its writes are
              arbitrary, so the state is universally quantified);
* `execErr` — `some msg` when `exec` itself rejected (non-zero exit, timeout,
              spawn failure), `none` when the process exited successfully.

The result is the final filesystem plus `some errorMessage` when the invoker
throws. -/

/-- The body of the `try` block after `exec`: verify that the output path
exists and is non-empty (deleting it when empty), as in utils.ts 229–238 /
304–313. -/
def execVerify (fsA : FSt) (execErr : Option String) (output : String)
    (msgMissing msgEmpty : String) : FSt × Option String :=
  match execErr with
  | some e => (fsA, some e)
  | none =>
    if existsSync fsA output = false then (fsA, some msgMissing)
    else
      match statSize fsA output with
      | some sz => if sz == 0 then (unlinkSync fsA output, some msgEmpty) else (fsA, none)
      | none => (fsA, some msgMissing)

/-- The `catch` block of `runFFmpeg` / `runPythonConversion`: on any error,
delete the output file if it exists, then surface the (possibly remapped)
error (utils.ts 240–245 / 317–337). -/
def catchCleanup (r : FSt × Option String) (output : String)
    (remap : String → String) : FSt × Option String :=
  match r with
  | (fs1, none) => (fs1, none)
  | (fs1, some e) =>
    ((if existsSync fs1 output then unlinkSync fs1 output else fs1), some (remap e))

/-- Source `runFFmpeg(input, output, targetFormat)` (utils.ts 215–246); the command
line itself does not affect the verification/cleanup contract. -/
def runFFmpeg (fsA : FSt) (execErr : Option String) (output : String) :
    FSt × Option String :=
  catchCleanup
    (execVerify fsA execErr output "FFmpeg 转换失败，输出文件未生成" "FFmpeg 转换失败，输出文件为空")
    output (fun e => e)

/-- Error-message remapping in `runPythonConversion`'s catch (utils.ts 325–336). -/
def mapPythonError (e description : String) : String :=
  if containsSub e "timeout" then "转换超时，请重试"
  else if containsSub e "ModuleNotFoundError" then "缺少必要的 Python 依赖库"
  else "Python 转换失败: " ++ description ++ " - " ++ e

/-- Source `runPythonConversion(input, output, conversionKey)` (utils.ts 278–338).
`fsPre` is the filesystem at entry (used for the script existence guard,
which runs before `exec`); `fsA` the state the python process leaves. -/
def runPythonConversion (fsPre fsA : FSt) (execErr : Option String)
    (conversionKey output : String) : FSt × Option String :=
  match lookupPy conversionKey with
  | none => (fsPre, some "转换脚本不存在: undefined")
  | some entry =>
    if existsSync fsPre entry.script = false then
      (fsPre, some ("转换脚本不存在: " ++ entry.script))
    else
      catchCleanup
        (execVerify fsA execErr output "Python 转换失败，输出文件未生成" "Python 转换失败，输出文件为空")
        output (fun e => mapPythonError e entry.description)

/-- Error-message remapping in `runSoffice`'s catch (utils.ts 389–398). -/
def mapSofficeError (e : String) : String :=
  if containsSub e "timeout" then "文档转换超时，请重试"
  else if containsSub e "ENOENT" then "LibreOffice 未安装或路径配置错误"
  else "文档转换失败: " ++ e

/-- Source `runSoffice(inputDir, outputDir, targetExt, inputFilename)` (utils.ts
341–402).  After `exec`, the code only checks that *some* file with the target
extension is present in the output directory; the catch block remaps the
error message but touches no file. -/
def runSoffice (fsA : FSt) (execErr : Option String) (outputDir targetExt : String) :
    FSt × Option String :=
  let tryRes : FSt × Option String :=
    match execErr with
    | some e => (fsA, some e)
    | none =>
      let convertedFiles :=
        (readdirSync fsA outputDir).filter (fun f => strToLower (extname f) == targetExt)
      if convertedFiles.isEmpty then
        (fsA, some ("LibreOffice 转换失败，未生成 " ++ targetExt ++ " 文件"))
      else (fsA, none)
  match tryRes with
  | (fs1, none) => (fs1, none)
  | (fs1, some e) => (fs1, some (mapSofficeError e))

/-! ### Task records and the orchestrator (`src/src/index.ts`) -/

structure Task where
  id : String
  state : TaskState
  createdAt : Nat
  updatedAt : Nat
  category : Category
  target : String
  source : String
  inputPath : String
  outputPath : Option String
  url : Option String
  downloadUrl : Option String
  previewUrl : Option String
  error : Option String
  originalFileName : Option String
deriving DecidableEq, Repr

/-- The task record created by the upload handler (index.ts 231–243). -/
def mkTask (id : String) (now : Nat) (category : Category)
    (target source inputPath : String) (originalFileName : Option String) : Task :=
  { id := id, state := .queued, createdAt := now, updatedAt := now,
    category := category, target := target, source := source,
    inputPath := inputPath, outputPath := none, url := none,
    downloadUrl := none, previewUrl := none, error := none,
    originalFileName := originalFileName }

/-- JS `n.toString().padStart(2, '0')` for a natural number. -/
def pad2 (n : Nat) : String :=
  let s := toString n
  if s.data.length < 2 then "0" ++ s else s

/-- The `YYMMDDHHmm` timestamp built in `convertAsync` (index.ts 298–305):
`year.toString().slice(2)` followed by zero-padded month/day/hours/minutes. -/
def timestampStr (year month day hours minutes : Nat) : String :=
  strDrop (toString year) 2 ++ pad2 month ++ pad2 day ++ pad2 hours ++ pad2 minutes

/-- A character kept verbatim by the sanitizer: JS `\w` (ASCII letters,
digits, underscore), the CJK range `一`–`龥`, or whitespace `\s`. -/
def isKeptChar (c : Char) : Bool :=
  c.isAlphanum || c == '_' || (0x4e00 ≤ c.toNat && c.toNat ≤ 0x9fa5) || c.isWhitespace

/-- Second sanitizer pass, JS `replace(/\s+/g, '_')`: each maximal whitespace
run becomes a single underscore (the flag records whether the previous kept
character was whitespace). -/
def collapseWsAux : Bool → List Char → List Char
  | _, [] => []
  | prevWs, c :: rest =>
    if c.isWhitespace then
      if prevWs then collapseWsAux true rest
      else '_' :: collapseWsAux true rest
    else c :: collapseWsAux false rest

/-- Sanitizer `originalName.replace(/[^\w一-龥\s]/g, '_').replace(/\s+/g, '_')`
(index.ts 312). -/
def cleanNameStr (s : String) : String :=
  ⟨collapseWsAux false (s.data.map (fun c => if isKeptChar c then c else '_'))⟩

/-- The output artifact base name built in `convertAsync` (index.ts 307–313):
sanitized display name (or an id-derived fallback when missing/too short)
plus the minute-resolution timestamp. -/
def friendlyName (originalFileName : Option String) (id ts : String) : String :=
  let originalName :=
    match originalFileName with
    | some n => if n.data.length < 2 then "document_" ++ ⟨id.data.take 6⟩ else n
    | none => "document_" ++ ⟨id.data.take 6⟩
  cleanNameStr originalName ++ "_" ++ ts

/-- Models `config.publicBaseUrl.replace(/\/$/, "")`: strip one trailing slash. -/
def stripTrailingSlash (s : String) : String :=
  match s.data.getLast? with
  | some '/' => ⟨s.data.dropLast⟩
  | _ => s

/-- Source `buildPublicUrl` (index.ts 613–616). -/
def buildPublicUrl (pathname : String) : String :=
  let base :=
    if config_publicBaseUrl == "" then "http://localhost:" ++ toString config_port
    else if stripTrailingSlash config_publicBaseUrl == "" then
      "http://localhost:" ++ toString config_port
    else stripTrailingSlash config_publicBaseUrl
  base ++ pathname

/-- Source `buildDownloadUrl` (index.ts 619–621). -/
def buildDownloadUrl (filename : String) : String :=
  buildPublicUrl ("/download/" ++ filename)

/-- Source `buildPreviewUrl` (index.ts 624–626). -/
def buildPreviewUrl (filename : String) : String :=
  buildPublicUrl ("/preview/" ++ filename)

/-- Outcome of the awaited conversion call inside `convertAsync` (the awaits
at index.ts 322/337): either the backend returned normally or it threw. -/
inductive ConvOutcome where
  | success
  | failure (msg : String)
deriving DecidableEq, Repr

/-- The store snapshots of a job at the observable points of `convertAsync`
(index.ts 290–384) plus the dispatch catch (index.ts 248–257).

The task store lives in a single-threaded event loop: other request handlers
can read a task only between event-loop turns, and `convertAsync` yields only
at its conversion `await`.  The observable snapshots of a dispatched job are
therefore: while processing (during the await), and after the terminal
synchronous block.  `ts` is the minute timestamp computed at dispatch;
`now1`/`now2`/`now3` are the `Date.now()` readings at the update points. -/
def convertAsyncTrace (t : Task) (publicDir ts : String) (now1 now2 now3 : Nat)
    (outcome : ConvOutcome) : List Task :=
  let t1 := { t with state := .processing, updatedAt := now1 }
  let fname := friendlyName t.originalFileName t.id ts
  match outcome with
  | .success =>
    let outputPath := joinPath publicDir (fname ++ "." ++ t.target)
    let outputFilename := fname ++ "." ++ t.target
    let t2 := { t1 with
      outputPath := some outputPath,
      url := some (buildPublicUrl ("/public/" ++ outputFilename)),
      downloadUrl := some (buildDownloadUrl outputFilename),
      previewUrl := some (buildPreviewUrl outputFilename),
      state := .finished, updatedAt := now2 }
    [t1, t2]
  | .failure msg =>
    let t2 := { t1 with state := .error, error := some msg, updatedAt := now2 }
    -- the dispatch catch (index.ts 248–257) re-applies the same terminal
    -- fields after `convertAsync` rethrows
    let t3 := { t2 with state := .error, error := some msg, updatedAt := now3 }
    [t1, t2, t3]

/-! ### Expiry sweeper (`src/src/index.ts`, lines 387–463) -/

/-- One starting position of the exemption regex `/_\d{8}\./`: an underscore,
exactly eight digits, then a literal dot. -/
def tsPatternAt (cs : List Char) : Bool :=
  match cs with
  | '_' :: rest =>
    ((rest.take 8).length == 8) && (rest.take 8).all Char.isDigit &&
      (match rest.drop 8 with
       | '.' :: _ => true
       | _ => false)
  | _ => false

/-- Check `file.match(/_\d{8}\./)` (index.ts 443): unanchored search for the
underscore-eight-digits-dot pattern. -/
def hasTimestampPattern : List Char → Bool
  | [] => false
  | c :: rest => tsPatternAt (c :: rest) || hasTimestampPattern rest

/-- Source `cleanupOrphanedFiles(directory, maxAge, dirName)` (index.ts 427–463):
delete every plain file directly inside `directory` whose mtime is older than
`maxAge`, unless its name matches the exemption regex.  Expressed as the
filter keeping the surviving entries. -/
def cleanupOrphanedFiles (fs : FSt) (directory : String) (maxAge now : Nat) : FSt :=
  fs.filter (fun f =>
    match entryName? directory f.path with
    | none => true
    | some name =>
      if f.isDirectory then true
      else if maxAge < now - f.mtimeMs then hasTimestampPattern name.data
      else true)

/-- Deleting the on-disk files of one expired task (index.ts 396–413). -/
def removeTaskFiles (fs : FSt) (t : Task) : FSt :=
  let fs1 := unlinkSync fs t.inputPath
  match t.outputPath with
  | some o => unlinkSync fs1 o
  | none => fs1

/-- A task is past its retention window: `now - task.createdAt > expireTime`
(index.ts 395).  JS number subtraction on timestamps with `createdAt ≤ now`;
for `now < createdAt` both readings make the comparison false. -/
def isExpired (now expireTime : Nat) (t : Task) : Bool :=
  expireTime < now - t.createdAt

/-- Source `cleanupExpiredFiles()` (index.ts 387–424): remove expired tasks and
their files, then orphan-sweep the upload directory (1 h threshold) and the
public directory (24 h threshold). -/
def cleanupExpiredFiles (store : List Task) (fs : FSt) (now expireTime : Nat)
    (uploadDir publicDir : String) : List Task × FSt :=
  let expired := store.filter (isExpired now expireTime)
  let fs1 := expired.foldl removeTaskFiles fs
  let store1 := store.filter (fun t => !isExpired now expireTime t)
  let fs2 := cleanupOrphanedFiles fs1 uploadDir (60 * 60 * 1000) now
  let fs3 := cleanupOrphanedFiles fs2 publicDir (24 * 60 * 60 * 1000) now
  (store1, fs3)

/-! ### Concurrency gate

Modelled from the spec: the Concurrency Gate is the `p-limit` package
(`convertLimiter = pLimit(config.conversion.maxConcurrent)`, index.ts 114),
whose source is not part of this repository.  Per spec §4.3/§5 it bounds
in-flight conversions to a fixed maximum and dispatches excess submissions
strictly in arrival order as slots free up.  `active` counts admitted jobs
(each admitted job is `processing` for exactly the span it holds its slot,
since `convertAsync` enters `processing` on admission and reaches a terminal
state before releasing it). -/

structure GateState where
  limit : Nat
  active : Nat
  queue : List Nat
  started : List Nat
  arrived : List Nat
deriving DecidableEq, Repr

inductive GateEvent where
  | submit (j : Nat)
  | finish
deriving DecidableEq, Repr

/-- One gate transition: a submission is admitted immediately when a slot is
free, otherwise appended to the wait queue; a completion frees a slot and
admits the head of the wait queue, if any. -/
def gateStep (g : GateState) (e : GateEvent) : GateState :=
  match e with
  | .submit j =>
    if g.active < g.limit then
      { g with active := g.active + 1, started := g.started ++ [j],
               arrived := g.arrived ++ [j] }
    else
      { g with queue := g.queue ++ [j], arrived := g.arrived ++ [j] }
  | .finish =>
    match g.queue with
    | [] => { g with active := g.active - 1 }
    | j :: rest =>
      { g with active := g.active - 1 + 1, queue := rest,
               started := g.started ++ [j] }

def gateInit (n : Nat) : GateState :=
  { limit := n, active := 0, queue := [], started := [], arrived := [] }

/-- The gate state after an arbitrary event sequence. -/
def gateRun (n : Nat) (es : List GateEvent) : GateState :=
  es.foldl gateStep (gateInit n)

/-! ### Helper lemmas -/

theorem if_false_shape (b : Bool) : (if b = false then false else true) = b := by
  cases b <;> rfl

theorem existsSync_filter_mono (fs : FSt) (pred : FileEnt → Bool) (q : String)
    (h : existsSync fs q = false) : existsSync (fs.filter pred) q = false := by
  simp only [existsSync, List.any_eq_false] at h ⊢
  intro f hf
  exact h f (List.mem_of_mem_filter hf)

theorem existsSync_unlinkSync_self (fs : FSt) (p : String) :
    existsSync (unlinkSync fs p) p = false := by
  simp only [existsSync, unlinkSync, List.any_eq_false]
  intro f hf
  have := List.of_mem_filter hf
  simpa using this

theorem existsSync_unlinkSync_mono (fs : FSt) (p q : String)
    (h : existsSync fs q = false) : existsSync (unlinkSync fs p) q = false :=
  existsSync_filter_mono fs _ q h

theorem statSize_of_existsSync (fs : FSt) (p : String)
    (h : existsSync fs p = true) : ∃ sz, statSize fs p = some sz := by
  simp only [existsSync, List.any_eq_true] at h
  obtain ⟨f, hf, hp⟩ := h
  have : (fs.find? (fun f => f.path == p)).isSome = true :=
    List.find?_isSome.2 ⟨f, hf, hp⟩
  obtain ⟨g, hg⟩ := Option.isSome_iff_exists.1 this
  exact ⟨g.size, by simp [statSize, hg]⟩

/-- The shared verification/cleanup pipeline never surfaces an error while
leaving the output path on disk. -/
theorem invoke_error_no_artifact (fsA : FSt) (execErr : Option String)
    (output m1 m2 : String) (remap : String → String) :
    ((catchCleanup (execVerify fsA execErr output m1 m2) output remap).2).isSome = true →
    existsSync ((catchCleanup (execVerify fsA execErr output m1 m2) output remap).1) output
      = false := by
  intro herr
  cases execErr with
  | some e =>
    by_cases h : existsSync fsA output = true
    · simp [execVerify, catchCleanup, h, existsSync_unlinkSync_self]
    · simp only [Bool.not_eq_true] at h
      simp [execVerify, catchCleanup, h]
  | none =>
    by_cases h : existsSync fsA output = false
    · simp [execVerify, catchCleanup, h]
    · simp only [Bool.not_eq_false] at h
      cases hs : statSize fsA output with
      | none => simp [execVerify, catchCleanup, h, hs, existsSync_unlinkSync_self]
      | some sz =>
        by_cases hz : sz = 0
        · subst hz
          simp [execVerify, catchCleanup, h, hs, existsSync_unlinkSync_self]
        · simp [execVerify, catchCleanup, h, hs, hz] at herr

/-- The shared verification/cleanup pipeline returns success only with a
non-empty output file in place. -/
theorem invoke_ok_artifact (fsA : FSt) (execErr : Option String)
    (output m1 m2 : String) (remap : String → String) :
    (catchCleanup (execVerify fsA execErr output m1 m2) output remap).2 = none →
    ∃ sz, statSize ((catchCleanup (execVerify fsA execErr output m1 m2) output remap).1) output
      = some sz ∧ 0 < sz := by
  intro hok
  cases execErr with
  | some e => simp [execVerify, catchCleanup] at hok
  | none =>
    by_cases h : existsSync fsA output = false
    · simp [execVerify, catchCleanup, h] at hok
    · simp only [Bool.not_eq_false] at h
      cases hs : statSize fsA output with
      | none => simp [execVerify, catchCleanup, h, hs] at hok
      | some sz =>
        by_cases hz : sz = 0
        · subst hz
          simp [execVerify, catchCleanup, h, hs] at hok
        · refine ⟨sz, ?_, Nat.pos_of_ne_zero hz⟩
          simp [execVerify, catchCleanup, h, hs, hz]

/-- Key lookup versus filtered key projection, for tables with distinct keys. -/
theorem mem_filterKeys_iff (tbl : List (String × List String))
    (P : String → List String → Bool) (t : String)
    (hnd : (tbl.map Prod.fst).Nodup) :
    t ∈ (tbl.filter (fun e => P e.1 e.2)).map Prod.fst ↔
      ∃ ss, lookupTable tbl t = some ss ∧ P t ss = true := by
  induction tbl with
  | nil => simp [lookupTable]
  | cons hd tl ih =>
    obtain ⟨k, v⟩ := hd
    simp only [List.map_cons, List.nodup_cons] at hnd
    obtain ⟨hk_not, hnd'⟩ := hnd
    by_cases hkt : k = t
    · subst hkt
      have hl : lookupTable ((k, v) :: tl) k = some v := by
        simp [lookupTable, List.find?_cons_of_pos]
      constructor
      · intro hmem
        refine ⟨v, hl, ?_⟩
        rcases List.mem_map.1 hmem with ⟨e, he, hfst⟩
        rcases List.mem_filter.1 he with ⟨he_mem, heP⟩
        rcases List.mem_cons.1 he_mem with h1 | h2
        · subst h1; exact heP
        · exact absurd (hfst ▸ List.mem_map_of_mem Prod.fst h2) hk_not
      · rintro ⟨ss, hss, hP⟩
        have hveq : ss = v := by
          rw [hl] at hss
          exact (Option.some.inj hss).symm
        subst hveq
        have hmf : (k, ss) ∈ List.filter (fun e => P e.1 e.2) ((k, ss) :: tl) :=
          List.mem_filter.2 ⟨List.mem_cons_self _ _, hP⟩
        exact List.mem_map_of_mem Prod.fst hmf
    · have hl : lookupTable ((k, v) :: tl) t = lookupTable tl t := by
        unfold lookupTable
        rw [List.find?_cons_of_neg]
        simp [hkt]
      rw [hl, ← ih hnd']
      have hkt' : ¬ t = k := fun h => hkt h.symm
      by_cases hP : P k v = true <;>
        simp [List.filter_cons, hP, hkt']

theorem str_data_append (a b : String) : (a ++ b).data = a.data ++ b.data := rfl

theorem str_append_left_cancel (a b c : String) (h : a ++ b = a ++ c) : b = c := by
  have hd : a.data ++ b.data = a.data ++ c.data := by
    have h1 := congrArg String.data h
    rwa [str_data_append, str_data_append] at h1
  have hbc : b.data = c.data := List.append_cancel_left hd
  obtain ⟨b⟩ := b
  obtain ⟨c⟩ := c
  have hbc' : b = c := by simpa using hbc
  rw [hbc']

/-- Gate invariant: the limit is the configured constant, the number of
running jobs never exceeds it, a non-empty wait queue means the gate is
saturated, and the dispatch history followed by the wait queue is exactly the
arrival history (so dispatch order is FIFO). -/
def GateInv (n : Nat) (g : GateState) : Prop :=
  g.limit = n ∧ g.active ≤ n ∧ (g.queue ≠ [] → g.active = n) ∧
    g.arrived = g.started ++ g.queue

theorem gateStep_inv {n : Nat} (hn : 1 ≤ n) {g : GateState} (e : GateEvent)
    (h : GateInv n g) : GateInv n (gateStep g e) := by
  obtain ⟨hl, ha, hq, harr⟩ := h
  cases e with
  | submit j =>
    simp only [gateStep]
    by_cases hcap : g.active < g.limit
    · simp only [if_pos hcap]
      have hqe : g.queue = [] := by
        by_contra hne
        have := hq hne
        omega
      refine ⟨hl, ?_, ?_, ?_⟩
      · show g.active + 1 ≤ n
        omega
      · show g.queue ≠ [] → g.active + 1 = n
        intro hne
        exact absurd hqe hne
      · show g.arrived ++ [j] = (g.started ++ [j]) ++ g.queue
        rw [hqe, harr, hqe]
        simp
    · simp only [if_neg hcap]
      refine ⟨hl, ha, ?_, ?_⟩
      · show g.queue ++ [j] ≠ [] → g.active = n
        intro _
        omega
      · show g.arrived ++ [j] = g.started ++ (g.queue ++ [j])
        rw [harr, List.append_assoc]
  | finish =>
    cases hqq : g.queue with
    | nil =>
      simp only [gateStep, hqq]
      refine ⟨hl, ?_, ?_, ?_⟩
      · show g.active - 1 ≤ n
        omega
      · show ([] : List Nat) ≠ [] → g.active - 1 = n
        intro hne
        exact absurd rfl hne
      · show g.arrived = g.started ++ ([] : List Nat)
        rw [harr, hqq]
    | cons j rest =>
      simp only [gateStep, hqq]
      have hact : g.active = n := hq (by simp [hqq])
      refine ⟨hl, ?_, ?_, ?_⟩
      · show g.active - 1 + 1 ≤ n
        omega
      · show rest ≠ [] → g.active - 1 + 1 = n
        intro _
        omega
      · show g.arrived = (g.started ++ [j]) ++ rest
        rw [harr, hqq]
        simp

theorem gateFold_inv {n : Nat} (hn : 1 ≤ n) (es : List GateEvent) :
    ∀ g, GateInv n g → GateInv n (es.foldl gateStep g) := by
  induction es with
  | nil => intro g hg; simpa using hg
  | cons e tl ih =>
    intro g hg
    simpa using ih _ (gateStep_inv hn e hg)

theorem existsSync_removeTaskFiles_mono (fs : FSt) (t : Task) (q : String)
    (h : existsSync fs q = false) : existsSync (removeTaskFiles fs t) q = false := by
  unfold removeTaskFiles
  cases t.outputPath with
  | none => exact existsSync_unlinkSync_mono _ _ _ h
  | some o => exact existsSync_unlinkSync_mono _ _ _ (existsSync_unlinkSync_mono _ _ _ h)

theorem foldl_removeTaskFiles_mono (l : List Task) (fs : FSt) (q : String)
    (h : existsSync fs q = false) :
    existsSync (l.foldl removeTaskFiles fs) q = false := by
  induction l generalizing fs with
  | nil => simpa using h
  | cons t tl ih =>
    simpa using ih _ (existsSync_removeTaskFiles_mono fs t q h)

theorem foldl_removeTaskFiles_mem (l : List Task) (fs : FSt) (t : Task) (ht : t ∈ l) :
    existsSync (l.foldl removeTaskFiles fs) t.inputPath = false ∧
    (∀ o, t.outputPath = some o →
      existsSync (l.foldl removeTaskFiles fs) o = false) := by
  induction l generalizing fs with
  | nil => exact absurd ht (List.not_mem_nil t)
  | cons hd tl ih =>
    rcases List.mem_cons.1 ht with heq | hmem
    · subst heq
      constructor
      · rw [List.foldl_cons]
        apply foldl_removeTaskFiles_mono
        unfold removeTaskFiles
        cases ho : t.outputPath with
        | none => exact existsSync_unlinkSync_self _ _
        | some o => exact existsSync_unlinkSync_mono _ _ _ (existsSync_unlinkSync_self _ _)
      · intro o ho
        rw [List.foldl_cons]
        apply foldl_removeTaskFiles_mono
        unfold removeTaskFiles
        rw [ho]
        exact existsSync_unlinkSync_self _ _
    · rw [List.foldl_cons]
      exact ih _ hmem

/-! ### Claim theorems -/

/-- C2: for every filesystem state `ex`, the router returns
`isSupported("audio", ".wav", "mp3") = true` unconditionally,
`isSupported("document", ".pdf", "docx")` exactly when the configured
pdf-to-doc script file exists on disk, and
`isSupported("document", ".xyz", "pdf") = false`. -/
theorem C2_router_basic_decisions (ex : String → Bool) :
    isConversionSupported ex .audio ".wav" "mp3" = true ∧
    isConversionSupported ex .document ".pdf" "docx" = ex pythonScripts_pdfToDoc ∧
    isConversionSupported ex .document ".xyz" "pdf" = false :=
  ⟨rfl, if_false_shape (ex pythonScripts_pdfToDoc), rfl⟩

/-- C3: for every (source, target) pair declared in the per-pair script table
`pythonConversions`, and for every filesystem state `ex`, the router's
decision equals exactly the existence bit of that pair's script — script
handling overrides the generic static table.  The final two conjuncts
witness the two flavours: the static table also declares pdf→docx (`".pdf"`
is in the `"docx"` row) but does not declare html→pdf (`".html"` is not in
the `"pdf"` row). -/
theorem C3_python_pairs_decided_by_script (ex : String → Bool) :
    isConversionSupported ex .document ".pdf" "doc" = ex pythonScripts_pdfToDoc ∧
    isConversionSupported ex .document ".pdf" "docx" = ex pythonScripts_pdfToDoc ∧
    isConversionSupported ex .document ".pdf" "txt" = ex pythonScripts_pdfToTxt ∧
    isConversionSupported ex .document ".pdf" "xls" = ex pythonScripts_pdfToXls ∧
    isConversionSupported ex .document ".pdf" "xlsx" = ex pythonScripts_pdfToXls ∧
    isConversionSupported ex .document ".pdf" "ppt" = ex pythonScripts_pdfToPpt ∧
    isConversionSupported ex .document ".pdf" "pptx" = ex pythonScripts_pdfToPpt ∧
    isConversionSupported ex .document ".doc" "html" = ex pythonScripts_docToHtml ∧
    isConversionSupported ex .document ".docx" "html" = ex pythonScripts_docToHtml ∧
    isConversionSupported ex .document ".xls" "doc" = ex pythonScripts_xlsToDoc ∧
    isConversionSupported ex .document ".xlsx" "doc" = ex pythonScripts_xlsToDoc ∧
    isConversionSupported ex .document ".xls" "docx" = ex pythonScripts_xlsToDoc ∧
    isConversionSupported ex .document ".xlsx" "docx" = ex pythonScripts_xlsToDoc ∧
    isConversionSupported ex .document ".xls" "txt" = ex pythonScripts_xlsToTxt ∧
    isConversionSupported ex .document ".xlsx" "txt" = ex pythonScripts_xlsToTxt ∧
    isConversionSupported ex .document ".txt" "doc" = ex pythonScripts_txtToWord ∧
    isConversionSupported ex .document ".txt" "docx" = ex pythonScripts_txtToWord ∧
    isConversionSupported ex .document ".txt" "xls" = ex pythonScripts_txtToXls ∧
    isConversionSupported ex .document ".txt" "xlsx" = ex pythonScripts_txtToXls ∧
    isConversionSupported ex .document ".html" "doc" = ex pythonScripts_htmlToWord ∧
    isConversionSupported ex .document ".html" "docx" = ex pythonScripts_htmlToWord ∧
    isConversionSupported ex .document ".html" "pdf" = ex pythonScripts_htmlToPdf ∧
    ((lookupTable documentConversions "docx").getD []).contains ".pdf" = true ∧
    ((lookupTable documentConversions "pdf").getD []).contains ".html" = false :=
  ⟨if_false_shape (ex pythonScripts_pdfToDoc),
   if_false_shape (ex pythonScripts_pdfToDoc),
   if_false_shape (ex pythonScripts_pdfToTxt),
   if_false_shape (ex pythonScripts_pdfToXls),
   if_false_shape (ex pythonScripts_pdfToXls),
   if_false_shape (ex pythonScripts_pdfToPpt),
   if_false_shape (ex pythonScripts_pdfToPpt),
   if_false_shape (ex pythonScripts_docToHtml),
   if_false_shape (ex pythonScripts_docToHtml),
   if_false_shape (ex pythonScripts_xlsToDoc),
   if_false_shape (ex pythonScripts_xlsToDoc),
   if_false_shape (ex pythonScripts_xlsToDoc),
   if_false_shape (ex pythonScripts_xlsToDoc),
   if_false_shape (ex pythonScripts_xlsToTxt),
   if_false_shape (ex pythonScripts_xlsToTxt),
   if_false_shape (ex pythonScripts_txtToWord),
   if_false_shape (ex pythonScripts_txtToWord),
   if_false_shape (ex pythonScripts_txtToXls),
   if_false_shape (ex pythonScripts_txtToXls),
   if_false_shape (ex pythonScripts_htmlToWord),
   if_false_shape (ex pythonScripts_htmlToWord),
   if_false_shape (ex pythonScripts_htmlToPdf),
   by decide, by decide⟩

/-- C9: under any filesystem state `ex`, for every category, source extension
and target format, `target ∈ getSupportedTargets(category, sourceExt)` holds
exactly when `isConversionSupported(category, sourceExt, target)` is true. -/
theorem C9_targets_iff_supported (ex : String → Bool) (category : Category)
    (sourceExt target : String) :
    target ∈ getSupportedTargets ex category sourceExt ↔
      isConversionSupported ex category sourceExt target = true := by
  cases category with
  | audio =>
    have h := mem_filterKeys_iff audioConversions (fun _ ss => ss.contains sourceExt)
      target (by decide)
    refine Iff.trans h ?_
    cases hl : lookupTable audioConversions target with
    | none => simp [isConversionSupported, hl]
    | some ss => simp [isConversionSupported, hl]
  | document =>
    have h := mem_filterKeys_iff documentConversions
      (fun tgt ss =>
        match lookupPy (replaceFirstDot sourceExt ++ "->" ++ tgt) with
        | some entry => ex entry.script
        | none => ss.contains sourceExt) target (by decide)
    refine Iff.trans h ?_
    cases hl : lookupTable documentConversions target with
    | none => simp [isConversionSupported, hl]
    | some ss =>
      cases hp : lookupPy (replaceFirstDot sourceExt ++ "->" ++ target) with
      | none => simp [isConversionSupported, hl, hp]
      | some entry => simp [isConversionSupported, hl, hp, if_false_shape]

/-- C10: the upload handler lowercases the requested target format and strips
a single leading dot before any routing decision, so `"MP3"`, `"mp3"` and
`".mp3"` normalize to the same string and route identically for every
category, file extension and filesystem state. -/
theorem C10_target_normalized_before_routing (ex : String → Bool)
    (category : Category) (fileExt : String) :
    normalizeTarget "MP3" = "mp3" ∧
    normalizeTarget ".mp3" = "mp3" ∧
    normalizeTarget "mp3" = "mp3" ∧
    uploadRouteSupported ex category fileExt "MP3" =
      uploadRouteSupported ex category fileExt "mp3" ∧
    uploadRouteSupported ex category fileExt ".mp3" =
      uploadRouteSupported ex category fileExt "mp3" :=
  ⟨by decide, by decide, by decide, rfl, rfl⟩

/-- C1 counterexample: a LibreOffice invocation that fails (e.g. the process
is killed by the timeout) surfaces an error while a zero-byte partial
artifact written by the killed process stays on disk — `runSoffice`'s catch
block (utils.ts 386–401) deletes nothing, so the claim that *every* backend
invoker deletes partial output before surfacing an error is false. -/
theorem C1_counterexample :
    (runSoffice [⟨"public/report_2510121030.pdf", 0, 0, false⟩]
        (some "Command failed") "public" ".pdf").2.isSome = true ∧
    existsSync (runSoffice [⟨"public/report_2510121030.pdf", 0, 0, false⟩]
        (some "Command failed") "public" ".pdf").1 "public/report_2510121030.pdf" = true ∧
    statSize (runSoffice [⟨"public/report_2510121030.pdf", 0, 0, false⟩]
        (some "Command failed") "public" ".pdf").1 "public/report_2510121030.pdf" = some 0 := by
  decide

/-- C1 amended: the FFmpeg and Python invokers verify that the requested
output path exists with non-zero size regardless of exit status, and delete
any partial output before surfacing an error; the LibreOffice invoker does
not — its catch block leaves the filesystem untouched (it only remaps the
message), and on success it merely requires that *some* file with the target
extension is present in the output directory, with no size check (the final
conjunct shows a zero-byte directory entry passing). -/
theorem C1_amended_invoker_cleanup (fsPre fsA : FSt) (execErr : Option String)
    (conversionKey output outputDir targetExt e : String) (entry : PyConv) :
    (((runFFmpeg fsA execErr output).2).isSome = true →
      existsSync (runFFmpeg fsA execErr output).1 output = false) ∧
    ((runFFmpeg fsA execErr output).2 = none →
      ∃ sz, statSize (runFFmpeg fsA execErr output).1 output = some sz ∧ 0 < sz) ∧
    (lookupPy conversionKey = some entry →
      existsSync fsPre entry.script = true →
      ((((runPythonConversion fsPre fsA execErr conversionKey output).2).isSome = true →
        existsSync (runPythonConversion fsPre fsA execErr conversionKey output).1 output
          = false) ∧
      ((runPythonConversion fsPre fsA execErr conversionKey output).2 = none →
        ∃ sz, statSize (runPythonConversion fsPre fsA execErr conversionKey output).1 output
          = some sz ∧ 0 < sz))) ∧
    (runSoffice fsA (some e) outputDir targetExt = (fsA, some (mapSofficeError e))) ∧
    ((runSoffice [⟨"public/empty.pdf", 0, 0, false⟩] none "public" ".pdf").2 = none) := by
  refine ⟨invoke_error_no_artifact fsA execErr output _ _ _,
          invoke_ok_artifact fsA execErr output _ _ _, ?_, rfl, by decide⟩
  intro hk hs
  have hrw : runPythonConversion fsPre fsA execErr conversionKey output =
      catchCleanup
        (execVerify fsA execErr output "Python 转换失败，输出文件未生成" "Python 转换失败，输出文件为空")
        output (fun msg => mapPythonError msg entry.description) := by
    unfold runPythonConversion
    rw [hk]
    simp [hs]
  rw [hrw]
  exact ⟨invoke_error_no_artifact fsA execErr output _ _ _,
         invoke_ok_artifact fsA execErr output _ _ _⟩

/-- C1 amended, concrete witness: an FFmpeg invocation killed by timeout with
a partial output file on disk ends with the output path absent. -/
theorem C1_amended_witness :
    existsSync (runFFmpeg [⟨"public/out.mp3", 7, 0, false⟩] (some "timeout")
        "public/out.mp3").1 "public/out.mp3" = false :=
  (C1_amended_invoker_cleanup [] [⟨"public/out.mp3", 7, 0, false⟩] (some "timeout")
    "pdf->doc" "public/out.mp3" "public" ".pdf" "x"
    ⟨pythonScripts_pdfToDoc, "PDF 转 Word"⟩).1 (by decide)

/-- C4: at every observable point of a job's lifecycle — the store snapshots
between event-loop turns: after creation (`queued`), during the conversion
await (`processing`), and after each terminal synchronous block — the
`outputPath` field is set exactly when the state is `finished` and the
`error` field is set exactly when the state is `error`.  (index.ts sets
`outputPath` and `finished`, resp. `error` and its message, inside one
synchronous block with no await between them, so no other handler can
observe a half-updated record.) -/
theorem C4_lifecycle_field_invariant (id : String) (now0 : Nat)
    (category : Category) (target source inputPath : String)
    (origName : Option String) (publicDir ts : String) (now1 now2 now3 : Nat)
    (outcome : ConvOutcome) (t : Task)
    (ht : t ∈ mkTask id now0 category target source inputPath origName ::
          convertAsyncTrace (mkTask id now0 category target source inputPath origName)
            publicDir ts now1 now2 now3 outcome) :
    (t.outputPath.isSome = true ↔ t.state = .finished) ∧
    (t.error.isSome = true ↔ t.state = .error) := by
  cases outcome with
  | success =>
    simp only [convertAsyncTrace, mkTask, List.mem_cons, List.mem_singleton,
      List.not_mem_nil, or_false] at ht
    rcases ht with rfl | rfl | rfl <;> simp
  | failure msg =>
    simp only [convertAsyncTrace, mkTask, List.mem_cons, List.mem_singleton,
      List.not_mem_nil, or_false] at ht
    rcases ht with rfl | rfl | rfl | rfl <;> simp

/-- C4 witness: the freshly created task is one of the observable snapshots,
and its fields satisfy the invariant. -/
theorem C4_lifecycle_witness :
    ((mkTask "j1" 0 .audio "mp3" "wav" "uploads/a.wav" (some "song")).outputPath.isSome
        = true ↔
      (mkTask "j1" 0 .audio "mp3" "wav" "uploads/a.wav" (some "song")).state
        = .finished) ∧
    ((mkTask "j1" 0 .audio "mp3" "wav" "uploads/a.wav" (some "song")).error.isSome
        = true ↔
      (mkTask "j1" 0 .audio "mp3" "wav" "uploads/a.wav" (some "song")).state
        = .error) :=
  C4_lifecycle_field_invariant "j1" 0 .audio "mp3" "wav" "uploads/a.wav" (some "song")
    "public" "2510121030" 1 2 3 .success _ (by decide)

/-- C5 counterexample: two distinct jobs submitted with the same original
filename in the same clock minute get *identical* generated output base
names — the timestamp has only minute resolution and the job id is not part
of the name, so the claim of distinctness at arbitrary times is false. -/
theorem C5_counterexample :
    friendlyName (some "report") "aaa111" (timestampStr 2025 10 12 10 30) =
      friendlyName (some "report") "bbb222" (timestampStr 2025 10 12 10 30) ∧
    ("aaa111" : String) ≠ "bbb222" := by
  decide

/-- C5 amended: two submissions with the same (usable) original filename get
distinct generated output names whenever their minute-resolution
`YYMMDDHHmm` timestamps differ; within the same clock minute the names
collide (see the counterexample). -/
theorem C5_amended_distinct_across_minutes (n id1 id2 ts1 ts2 : String)
    (hn : 2 ≤ n.data.length) (hts : ts1 ≠ ts2) :
    friendlyName (some n) id1 ts1 ≠ friendlyName (some n) id2 ts2 := by
  intro h
  unfold friendlyName at h
  simp only [if_neg (show ¬ n.data.length < 2 by omega)] at h
  exact hts (str_append_left_cancel (cleanNameStr n ++ "_") ts1 ts2 h)

/-- C5 amended witness: same name, adjacent minutes, distinct output names. -/
theorem C5_amended_witness :
    friendlyName (some "report") "aaa111" (timestampStr 2025 10 12 10 30) ≠
      friendlyName (some "report") "bbb222" (timestampStr 2025 10 12 10 31) :=
  C5_amended_distinct_across_minutes "report" "aaa111" "bbb222"
    (timestampStr 2025 10 12 10 30) (timestampStr 2025 10 12 10 31)
    (by decide) (by decide)

/-- C6: evaluation at the failing input.  A successful conversion of
`report` at 2025-10-12 10:30 produces the output name
`report_2510121030.pdf` (first conjunct); its ten-digit minute timestamp
does *not* match the sweep's exemption regex `/_\d{8}\./`, which demands
exactly eight digits (second conjunct); consequently the orphan sweep of the
public directory deletes the file as soon as it is older than the directory
age threshold (third conjunct: 24 h threshold, file 1 ms past it), contrary
to the claimed exemption. -/
theorem C6_sweep_deletes_friendly_file :
    friendlyName (some "report") "abc123xyz" (timestampStr 2025 10 12 10 30) ++ ".pdf"
      = "report_2510121030.pdf" ∧
    hasTimestampPattern ("report_2510121030.pdf".data) = false ∧
    cleanupOrphanedFiles [⟨"public/report_2510121030.pdf", 1024, 0, false⟩]
      "public" (24 * 60 * 60 * 1000) (24 * 60 * 60 * 1000 + 1) = [] := by
  decide

/-- C7: with the configured bound `maxConcurrent = 2`, after any sequence of
submission/completion events the gate never has more than `maxConcurrent`
jobs admitted (hence at most that many jobs in `processing`), and the
dispatch history followed by the wait queue equals the arrival history —
excess submissions wait and are dispatched strictly in arrival (FIFO)
order. -/
theorem C7_concurrency_gate_bound (es : List GateEvent) :
    (gateRun config_maxConcurrent es).active ≤ config_maxConcurrent ∧
    (gateRun config_maxConcurrent es).arrived =
      (gateRun config_maxConcurrent es).started ++ (gateRun config_maxConcurrent es).queue := by
  have h := gateFold_inv (n := config_maxConcurrent) (by decide) es (gateInit _)
    ⟨rfl, by decide, by simp [gateInit], by simp [gateInit]⟩
  exact ⟨h.2.1, h.2.2.2⟩

/-- C8 counterexample: expiry is enforced only by the periodic sweep, not at
`T + W` itself.  A job created at `T = 0` with retention `W = 10` is still in
the task store when queried at `T + W + 1 = 11` if the only sweep so far ran
at time 5: that sweep keeps the job (it is not yet expired), and queries do
not mutate the store, so the claim that the job is absent at any
`T + W + ε` is false. -/
theorem C8_counterexample :
    (cleanupExpiredFiles
        [mkTask "job1" 0 .audio "mp3" "wav" "uploads/a.wav" (some "song")] [] 5 10
        "uploads" "public").1
      = [mkTask "job1" 0 .audio "mp3" "wav" "uploads/a.wav" (some "song")] ∧
    0 + 10 < 11 := by
  decide

/-- C8 amended: a job created at `T` with retention window `W` survives every
sweep that runs at a time `now ≤ T + W` (in particular it is present at
`T + W − ε`), and the first sweep that runs at a time `now > T + W` removes
it from the store and deletes its input and output files; absence at
`T + W + ε` is guaranteed only once such a sweep has run. -/
theorem C8_amended_sweep_expiry (store : List Task) (fs : FSt)
    (now expireTime : Nat) (uploadDir publicDir : String) (task : Task)
    (hmem : task ∈ store) :
    (now ≤ task.createdAt + expireTime →
      task ∈ (cleanupExpiredFiles store fs now expireTime uploadDir publicDir).1) ∧
    (task.createdAt + expireTime < now →
      task ∉ (cleanupExpiredFiles store fs now expireTime uploadDir publicDir).1 ∧
      existsSync (cleanupExpiredFiles store fs now expireTime uploadDir publicDir).2
        task.inputPath = false ∧
      (∀ o, task.outputPath = some o →
        existsSync (cleanupExpiredFiles store fs now expireTime uploadDir publicDir).2 o
          = false)) := by
  constructor
  · intro hlive
    have hexp : isExpired now expireTime task = false := by
      simp only [isExpired, decide_eq_false_iff_not, not_lt]
      omega
    unfold cleanupExpiredFiles
    exact List.mem_filter.2 ⟨hmem, by simp [hexp]⟩
  · intro hpast
    have hexp : isExpired now expireTime task = true := by
      simp only [isExpired, decide_eq_true_eq]
      omega
    have hexpired : task ∈ store.filter (isExpired now expireTime) :=
      List.mem_filter.2 ⟨hmem, hexp⟩
    have hfiles := foldl_removeTaskFiles_mem (store.filter (isExpired now expireTime))
      fs task hexpired
    refine ⟨?_, ?_, ?_⟩
    · intro hin
      unfold cleanupExpiredFiles at hin
      have := (List.mem_filter.1 hin).2
      simp [hexp] at this
    · unfold cleanupExpiredFiles
      exact existsSync_filter_mono _ _ _ (existsSync_filter_mono _ _ _ hfiles.1)
    · intro o ho
      unfold cleanupExpiredFiles
      exact existsSync_filter_mono _ _ _
        (existsSync_filter_mono _ _ _ (hfiles.2 o ho))

/-- C8 amended witness: with retention 10, a sweep at time 5 keeps the job
created at time 0. -/
theorem C8_amended_witness :
    (mkTask "job1" 0 .audio "mp3" "wav" "uploads/a.wav" (some "song")) ∈
      (cleanupExpiredFiles
        [mkTask "job1" 0 .audio "mp3" "wav" "uploads/a.wav" (some "song")] [] 5 10
        "uploads" "public").1 :=
  (C8_amended_sweep_expiry
    [mkTask "job1" 0 .audio "mp3" "wav" "uploads/a.wav" (some "song")] [] 5 10
    "uploads" "public" (mkTask "job1" 0 .audio "mp3" "wav" "uploads/a.wav" (some "song"))
    (by decide)).1 (by decide)

end ConvertBackend
